import Mathlib

/-!
Verification of the Exo-OS early-boot layer: a shallow embedding of the
Multiboot2 tag-stream parser (`src/kernel/src/arch/x86_64/boot/boot.c`),
the ACPI table-discovery driver (`src/kernel/src/c_compat/acpi.c`) and the
musl syscall bridge (`src/kernel/src/posix_x/musl/exo_syscall_bridge.c`),
together with theorems settling the specification's claims about them.

Physical memory is modelled as a byte function `Mem := Nat → Nat`; every
read truncates to a byte, and multi-byte loads are little-endian, matching
the x86-64 layout the C code relies on.
-/

/-- Physical memory: a total function from byte addresses to stored values.
Reads truncate to a byte (`% 256`), so any `Nat → Nat` is a valid image. -/
abbrev Mem := Nat → Nat

/-- A single byte load (`uint8_t` read) at address `a`. -/
def byte (m : Mem) (a : Nat) : Nat := m a % 256

/-- A little-endian 16-bit load (`uint16_t` read) at address `a`. -/
def le16 (m : Mem) (a : Nat) : Nat := byte m a + 256 * byte m (a + 1)

/-- A little-endian 32-bit load (`uint32_t` read) at address `a`. -/
def le32 (m : Mem) (a : Nat) : Nat :=
  byte m a + 256 * byte m (a + 1) + 65536 * byte m (a + 2) +
    16777216 * byte m (a + 3)

/-- A little-endian 64-bit load (`uint64_t` read) at address `a`. -/
def le64 (m : Mem) (a : Nat) : Nat :=
  le32 m a + 4294967296 * le32 m (a + 4)

/-!
## Multiboot2 tag-stream parser (boot.c, `parse_multiboot2`)

The C walker starts at `mbi_addr + 8` (skipping `total_size` and
`reserved`), loops while `tag->type != 0`, and advances by
`(tag->size + 7) & ~7` — `uint32_t` arithmetic, i.e. mod 2^32 with the low
three bits cleared.  The walker is embedded with explicit fuel; it returns
the list of `(type, size)` headers it visited together with the list of
offsets at which it performed 32-bit header loads, or `none` when the fuel
runs out (the C loop has not terminated within that many iterations).
-/

/-- The tag-advance of boot.c line 238: `(size + 7) & ~7` in `uint32_t`
arithmetic. -/
def align8 (s : Nat) : Nat := ((s + 7) % 4294967296) / 8 * 8

/-- The `while (tag->type != END)` loop of `parse_multiboot2`, with fuel.
Returns `(visited tag headers, offsets of 32-bit header loads)`. -/
def mb2walk (m : Mem) : Nat → Nat → Option (List (Nat × Nat) × List Nat)
  | 0, _ => none
  | fuel + 1, off =>
    if le32 m off = 0 then
      some ([], [off])
    else
      match mb2walk m fuel (off + align8 (le32 m (off + 4))) with
      | none => none
      | some r =>
        some ((le32 m off, le32 m (off + 4)) :: r.1,
          off :: (off + 4) :: r.2)

/-- `parse_multiboot2` of boot.c: reads `total_size` at the base address
(the C code stores it in a local it never consults again) and walks the
tag stream from `mbi_addr + 8`. -/
def parse_multiboot2 (m : Mem) (mbi_addr fuel : Nat) :
    Option (List (Nat × Nat) × List Nat) :=
  let _total_size := le32 m mbi_addr
  match mb2walk m fuel (mbi_addr + 8) with
  | none => none
  | some r => some (r.1, mbi_addr :: r.2)

/-- A well-formed tag stream laid out in memory from `off`: each listed
record's header is stored at its offset, kinds are nonzero, sizes are at
least the 8-byte header and small enough that the `uint32_t` advance does
not wrap, and the stream is terminated by an end record (kind 0). -/
def tagsLayoutB (m : Mem) : Nat → List (Nat × Nat) → Bool
  | off, [] => le32 m off == 0
  | off, (t, s) :: rest =>
    (le32 m off == t) && (le32 m (off + 4) == s) && (t != 0) &&
      (decide (8 ≤ s)) && (decide (s < 4294967289)) &&
      tagsLayoutB m (off + align8 s) rest

/-- A run of records laid out from `off` with no end sentinel claimed:
used to describe the part of a stream before a degenerate record. -/
def tagsNoEndB (m : Mem) : Nat → List (Nat × Nat) → Bool
  | _, [] => true
  | off, (t, s) :: rest =>
    (le32 m off == t) && (le32 m (off + 4) == s) && (t != 0) &&
      tagsNoEndB m (off + align8 s) rest

/-- The offset of the record following a laid-out run that starts at
`off`. -/
def layoutEnd : Nat → List (Nat × Nat) → Nat
  | off, [] => off
  | off, (_, s) :: rest => layoutEnd (off + align8 s) rest

/-- The header-load offsets the walker performs over a laid-out stream:
`off` and `off + 4` per record, then the end record's kind at the final
offset. -/
def readsOf : Nat → List (Nat × Nat) → List Nat
  | off, [] => [off]
  | off, (_, s) :: rest => off :: (off + 4) :: readsOf (off + align8 s) rest

/-!
## ACPI table discovery (acpi.c)

Structure offsets from the packed C structs: in `RSDP`, `signature` is
bytes 0–7, `checksum` byte 8, `oem_id` bytes 9–14, `revision` byte 15 and
`rsdt_address` bytes 16–19 (20 bytes in all).  `RSDPv2` appends `length`
at 20–23, `xsdt_address` at 24–31 and `extended_checksum` at 32.  An
`ACPITableHeader` is 36 bytes with `signature` at 0–3 and `length` at
4–7.  Null pointers discovered by the driver are modelled as address 0,
the value of the C globals before assignment.
-/

/-- The 8-byte signature "RSD PTR " compared as a `uint64_t`
(little-endian). -/
def RSDP_SIG : Nat := 0x2052545020445352

/-- `acpi_checksum`: the byte-sum of `len` bytes starting at `ptr`,
reduced mod 256 (the C sum is carried in a `uint8_t`). -/
def acpi_checksum (m : Mem) (ptr len : Nat) : Nat :=
  ((List.range len).map (fun i => byte m (ptr + i))).sum % 256

/-- The body of `find_rsdp_range`: probe `steps` candidate addresses
16 bytes apart, returning the first whose 8-byte signature matches and
whose 20-byte checksum is zero. -/
def rsdp_scan (m : Mem) : Nat → Nat → Option Nat
  | _, 0 => none
  | addr, steps + 1 =>
    if le32 m addr + 4294967296 * le32 m (addr + 4) = RSDP_SIG ∧
        acpi_checksum m addr 20 = 0 then
      some addr
    else
      rsdp_scan m (addr + 16) steps

/-- `find_rsdp_range(start, end)`: the C `for` loop runs once per address
in `[start, end)` with stride 16, i.e. `⌈(end − start) / 16⌉` probes. -/
def find_rsdp_range (m : Mem) (start stop : Nat) : Option Nat :=
  rsdp_scan m start ((stop - start + 15) / 16)

/-- `acpi_find_rsdp`: search the EBDA window (1 KiB at the paragraph
address stored at `0x40E`, when nonzero) and then the fixed BIOS area
`0xE0000`–`0xFFFFF`. -/
def acpi_find_rsdp (m : Mem) : Option Nat :=
  let ebda := le16 m 0x40E
  match (if ebda ≠ 0 then find_rsdp_range m (ebda * 16) (ebda * 16 + 0x400)
         else none) with
  | some p => some p
  | none => find_rsdp_range m 0xE0000 0x100000

/-- `acpi_init`: locate the RSDP; with revision ≥ 2 and a zero extended
checksum over the declared `length`, adopt the 64-bit `xsdt_address`;
when the XSDT pointer is still null, adopt a nonzero 32-bit
`rsdt_address`.  Returns `(return value, rsdt, xsdt)` — the C globals
after the call, with 0 for a null pointer. -/
def acpi_init (m : Mem) : Int × Nat × Nat :=
  match acpi_find_rsdp m with
  | none => (-1, 0, 0)
  | some p =>
    let revision := byte m (p + 15)
    let xsdt :=
      if 2 ≤ revision ∧ acpi_checksum m p (le32 m (p + 20)) = 0 then
        le64 m (p + 24)
      else 0
    let rsdt :=
      if xsdt = 0 ∧ le32 m (p + 16) ≠ 0 then le32 m (p + 16) else 0
    (if rsdt ≠ 0 ∨ xsdt ≠ 0 then 0 else -1, rsdt, xsdt)

/-- Does the table whose header sits at `h` match the 4-byte signature
`sig` and have a zero byte-sum over its declared length?  This is the
acceptance test `acpi_find_table` applies to each entry. -/
def validMatch (m : Mem) (sig h : Nat) : Prop :=
  le32 m h = sig ∧ acpi_checksum m h (le32 m (h + 4)) = 0

instance (m : Mem) (sig h : Nat) : Decidable (validMatch m sig h) :=
  inferInstanceAs (Decidable (_ ∧ _))

/-- The entry-array walk shared by both `acpi_find_table` loops: return
the first listed header address passing `validMatch`. -/
def scan_entries (m : Mem) (sig : Nat) : List Nat → Option Nat
  | [] => none
  | h :: rest =>
    if validMatch m sig h then some h else scan_entries m sig rest

/-- The XSDT entry addresses: `(header.length − 36) / 8` eight-byte
entries after the 36-byte header (`uint32_t` subtraction, so a length
below 36 wraps, as in the C). -/
def xsdt_entries (m : Mem) (x : Nat) : List Nat :=
  let n := ((le32 m (x + 4) + 4294967296 - 36) % 4294967296) / 8
  (List.range n).map (fun i => le64 m (x + 36 + 8 * i))

/-- The RSDT entry addresses: `(header.length − 36) / 4` four-byte
entries after the 36-byte header. -/
def rsdt_entries (m : Mem) (r : Nat) : List Nat :=
  let n := ((le32 m (r + 4) + 4294967296 - 36) % 4294967296) / 4
  (List.range n).map (fun i => le32 m (r + 36 + 4 * i))

/-- `acpi_find_table`: with both globals null return null; otherwise walk
the XSDT when present, else the RSDT, returning the first valid match or
null. -/
def acpi_find_table (m : Mem) (rsdt xsdt sig : Nat) : Nat :=
  if rsdt = 0 ∧ xsdt = 0 then 0
  else if xsdt ≠ 0 then
    match scan_entries m sig (xsdt_entries m xsdt) with
    | some h => h
    | none => 0
  else if rsdt ≠ 0 then
    match scan_entries m sig (rsdt_entries m rsdt) with
    | some h => h
    | none => 0
  else 0

/-- The entry list the selected root table exposes to `acpi_find_table`:
the XSDT's when adopted, else the RSDT's. -/
def root_entries (m : Mem) (rsdt xsdt : Nat) : List Nat :=
  if xsdt ≠ 0 then xsdt_entries m xsdt
  else if rsdt ≠ 0 then rsdt_entries m rsdt
  else []

/-!
## musl syscall bridge (exo_syscall_bridge.c)

`long` arguments are modelled by their 64-bit patterns (`Nat`), the
`(uint64_t)` casts by `% 2^64`, and the native boundary
`exo_kernel_syscall` by an oracle.  Each wrapper's embedding returns the
oracle's result together with the trace of boundary invocations its body
performs — the body is a single `return exo_kernel_syscall(...)`, so the
trace is that one 7-tuple.
-/

/-- The native boundary `exo_kernel_syscall`: a signed 64-bit result from
an operation number and six 64-bit words. -/
abbrev KBoundary := Int → Nat → Nat → Nat → Nat → Nat → Nat → Int

/-- One invocation of the native boundary: the 7-tuple it was passed. -/
abbrev BridgeCall := Int × Nat × Nat × Nat × Nat × Nat × Nat

instance : DecidableEq BridgeCall := fun a b =>
  inferInstanceAs (Decidable (a = b))

/-- The `(uint64_t)` cast applied to each `long` argument. -/
def u64 (a : Nat) : Nat := a % 18446744073709551616

/-- `SYS_clone` maps to the reserved "no native equivalent" sentinel. -/
def SYS_clone : Int := -1

/-- `SYS_vfork` maps to the reserved "no native equivalent" sentinel. -/
def SYS_vfork : Int := -1

/-- `SYS_ptrace` maps to the reserved "no native equivalent" sentinel. -/
def SYS_ptrace : Int := -1

/-- `__syscall0`: forward `(n, 0, 0, 0, 0, 0, 0)`. -/
def __syscall0 (k : KBoundary) (n : Int) : Int × List BridgeCall :=
  (k n 0 0 0 0 0 0, [(n, 0, 0, 0, 0, 0, 0)])

/-- `__syscall1`: forward `(n, a1, 0, 0, 0, 0, 0)`. -/
def __syscall1 (k : KBoundary) (n : Int) (a1 : Nat) :
    Int × List BridgeCall :=
  (k n (u64 a1) 0 0 0 0 0, [(n, u64 a1, 0, 0, 0, 0, 0)])

/-- `__syscall2`: forward `(n, a1, a2, 0, 0, 0, 0)`. -/
def __syscall2 (k : KBoundary) (n : Int) (a1 a2 : Nat) :
    Int × List BridgeCall :=
  (k n (u64 a1) (u64 a2) 0 0 0 0, [(n, u64 a1, u64 a2, 0, 0, 0, 0)])

/-- `__syscall3`: forward `(n, a1, a2, a3, 0, 0, 0)`. -/
def __syscall3 (k : KBoundary) (n : Int) (a1 a2 a3 : Nat) :
    Int × List BridgeCall :=
  (k n (u64 a1) (u64 a2) (u64 a3) 0 0 0,
    [(n, u64 a1, u64 a2, u64 a3, 0, 0, 0)])

/-- `__syscall4`: forward `(n, a1, a2, a3, a4, 0, 0)`. -/
def __syscall4 (k : KBoundary) (n : Int) (a1 a2 a3 a4 : Nat) :
    Int × List BridgeCall :=
  (k n (u64 a1) (u64 a2) (u64 a3) (u64 a4) 0 0,
    [(n, u64 a1, u64 a2, u64 a3, u64 a4, 0, 0)])

/-- `__syscall5`: forward `(n, a1, a2, a3, a4, a5, 0)`. -/
def __syscall5 (k : KBoundary) (n : Int) (a1 a2 a3 a4 a5 : Nat) :
    Int × List BridgeCall :=
  (k n (u64 a1) (u64 a2) (u64 a3) (u64 a4) (u64 a5) 0,
    [(n, u64 a1, u64 a2, u64 a3, u64 a4, u64 a5, 0)])

/-- `__syscall6`: forward the full `(n, a1, …, a6)`. -/
def __syscall6 (k : KBoundary) (n : Int) (a1 a2 a3 a4 a5 a6 : Nat) :
    Int × List BridgeCall :=
  (k n (u64 a1) (u64 a2) (u64 a3) (u64 a4) (u64 a5) (u64 a6),
    [(n, u64 a1, u64 a2, u64 a3, u64 a4, u64 a5, u64 a6)])

/-- `__syscall_cp`, the cancellation-point entry: its body is the same
single forward as `__syscall6`. -/
def __syscall_cp (k : KBoundary) (n : Int) (a1 a2 a3 a4 a5 a6 : Nat) :
    Int × List BridgeCall :=
  (k n (u64 a1) (u64 a2) (u64 a3) (u64 a4) (u64 a5) (u64 a6),
    [(n, u64 a1, u64 a2, u64 a3, u64 a4, u64 a5, u64 a6)])

/-!
## Concrete memory images and boundary oracles used by the theorems
-/

/-- Byte `i` of the 8-byte RSDP signature "RSD PTR ". -/
def rsdpSigAt : Nat → Nat
  | 0 => 0x52
  | 1 => 0x53
  | 2 => 0x44
  | 3 => 0x20
  | 4 => 0x50
  | 5 => 0x54
  | 6 => 0x52
  | 7 => 0x20
  | _ => 0

/-- Byte `i` of the 4-byte table signature "FACP". -/
def facpSigAt : Nat → Nat
  | 0 => 0x46
  | 1 => 0x41
  | 2 => 0x43
  | 3 => 0x50
  | _ => 0

/-- A boot-information block with `total_size = 16` whose single record
(kind 1, declared size 16) extends to offset 24, past the bound, with no
end sentinel inside the bound; the first zero kind word sits at offset
24. -/
def mOverrun : Mem := fun a =>
  if a = 0 then 16 else if a = 8 then 1 else if a = 12 then 16 else 0

/-- A well-formed block: `total_size = 32`, one record (kind 2, size 8)
at offset 8, end sentinel at offset 16. -/
def mWellFormed : Mem := fun a =>
  if a = 0 then 32 else if a = 8 then 2 else if a = 12 then 8 else 0

/-- A block whose first record has kind 5 and size 0: the tag advance is
zero. -/
def mZeroSize : Mem := fun a => if a = 8 then 5 else 0

/-- A memory image holding a valid revision-0 RSDP at `0xE0000` whose
`rsdt_address` is zero (signature bytes, checksum byte 225 making the
20-byte sum 768 ≡ 0, all other fields zero). -/
def mRsdpV1 : Mem := fun a =>
  if a < 0xE0000 then 0
  else if a - 0xE0000 < 8 then rsdpSigAt (a - 0xE0000)
  else if a - 0xE0000 = 8 then 225
  else 0

/-- A valid revision-2 RSDP at `0xE0000` with a passing extended checksum
whose `xsdt_address` is zero and whose `rsdt_address` is 64: v1 checksum
byte 159 (sum 768), `length = 36`, extended checksum byte 220 (sum
1024). -/
def mXsdtZero : Mem := fun a =>
  if a < 0xE0000 then 0
  else
    if a - 0xE0000 < 8 then rsdpSigAt (a - 0xE0000)
    else if a - 0xE0000 = 8 then 159
    else if a - 0xE0000 = 15 then 2
    else if a - 0xE0000 = 16 then 64
    else if a - 0xE0000 = 20 then 36
    else if a - 0xE0000 = 32 then 220
    else 0

/-- A valid revision-2 RSDP at `0xE0000` with a passing extended checksum
and a nonzero `xsdt_address` of 4096 (byte 16 at offset 25), alongside a
nonzero `rsdt_address` of 64: extended checksum byte 204 (sum 1024). -/
def mXsdtOk : Mem := fun a =>
  if a < 0xE0000 then 0
  else
    if a - 0xE0000 < 8 then rsdpSigAt (a - 0xE0000)
    else if a - 0xE0000 = 8 then 159
    else if a - 0xE0000 = 15 then 2
    else if a - 0xE0000 = 16 then 64
    else if a - 0xE0000 = 20 then 36
    else if a - 0xE0000 = 25 then 16
    else if a - 0xE0000 = 32 then 204
    else 0

/-- An XSDT at `0x1000` (declared length 52, so two 8-byte entries) whose
entries point at two "FACP" tables: the first, at `0x2000`, has a
nonzero byte-sum (318 ≡ 62); the second, at `0x3000`, has checksum byte
194 making its 36-byte sum 512 ≡ 0. -/
def mDupSig : Mem := fun a =>
  if a = 0x1004 then 52
  else if a = 0x1025 then 32
  else if a = 0x102D then 48
  else if 0x2000 ≤ a ∧ a < 0x2004 then facpSigAt (a - 0x2000)
  else if a = 0x2004 then 36
  else if 0x3000 ≤ a ∧ a < 0x3004 then facpSigAt (a - 0x3000)
  else if a = 0x3004 then 36
  else if a = 0x3009 then 194
  else 0

/-- A native boundary returning the fixed positive value 42. -/
def kPos : KBoundary := fun _ _ _ _ _ _ _ => 42

/-- A native boundary returning the fixed negative value −7. -/
def kNeg : KBoundary := fun _ _ _ _ _ _ _ => -7

/-- A recording-style native boundary whose result depends on its
inputs. -/
def kAdd : KBoundary := fun n a1 _ _ _ _ _ => n + (a1 : Int)

/-!
## Helper lemmas about the tag walker
-/

/-- A size of at least 8 that does not wrap the `uint32_t` advance yields
an advance of at least 8 bytes. -/
theorem align8_ge_eight {s : Nat} (h8 : 8 ≤ s) (hlt : s < 4294967289) :
    8 ≤ align8 s := by
  unfold align8
  rw [Nat.mod_eq_of_lt (by omega)]
  have h1 : 1 ≤ (s + 7) / 8 := (Nat.one_le_div_iff (by norm_num)).mpr (by omega)
  omega

/-- The end offset of a laid-out run is no smaller than its start. -/
theorem layoutEnd_ge (l : List (Nat × Nat)) : ∀ off, off ≤ layoutEnd off l := by
  induction l with
  | nil => intro off; rw [layoutEnd]
  | cons hd tl ih =>
    obtain ⟨t, s⟩ := hd
    intro off
    rw [layoutEnd]
    exact le_trans (Nat.le_add_right off (align8 s)) (ih (off + align8 s))

/-- Over a well-formed laid-out stream, the walker visits exactly the
laid-out records and performs exactly the header loads of `readsOf`. -/
theorem mb2walk_layout (m : Mem) :
    ∀ (l : List (Nat × Nat)) (off fuel : Nat),
      tagsLayoutB m off l = true → l.length + 1 ≤ fuel →
      mb2walk m fuel off = some (l, readsOf off l) := by
  intro l
  induction l with
  | nil =>
    intro off fuel h hf
    obtain ⟨f, rfl⟩ : ∃ f, fuel = f + 1 := ⟨fuel - 1, by omega⟩
    rw [tagsLayoutB, beq_iff_eq] at h
    rw [mb2walk, if_pos h, readsOf]
  | cons hd tl ih =>
    obtain ⟨t, s⟩ := hd
    intro off fuel h hf
    obtain ⟨f, rfl⟩ : ∃ f, fuel = f + 1 := ⟨fuel - 1, by omega⟩
    rw [tagsLayoutB] at h
    simp only [Bool.and_eq_true, beq_iff_eq, bne_iff_ne, decide_eq_true_eq] at h
    obtain ⟨⟨⟨⟨⟨h1, h2⟩, h3⟩, _h4⟩, _h5⟩, h6⟩ := h
    rw [mb2walk, if_neg (h1 ▸ h3), h2,
      ih (off + align8 s) f h6 (by simp at hf ⊢; omega), h1, readsOf]

/-- Every header load the walker performs over a laid-out stream lies at
or before the end record's offset. -/
theorem readsOf_le (m : Mem) :
    ∀ (l : List (Nat × Nat)) (off : Nat), tagsLayoutB m off l = true →
      ∀ o ∈ readsOf off l, o ≤ layoutEnd off l := by
  intro l
  induction l with
  | nil =>
    intro off _ o ho
    rw [readsOf] at ho
    simp at ho
    subst ho
    rw [layoutEnd]
  | cons hd tl ih =>
    obtain ⟨t, s⟩ := hd
    intro off h o ho
    rw [tagsLayoutB] at h
    simp only [Bool.and_eq_true, beq_iff_eq, bne_iff_ne, decide_eq_true_eq] at h
    obtain ⟨⟨⟨⟨⟨_h1, _h2⟩, _h3⟩, h4⟩, h5⟩, h6⟩ := h
    rw [readsOf] at ho
    simp only [List.mem_cons] at ho
    rw [layoutEnd]
    have ha : 8 ≤ align8 s := align8_ge_eight h4 h5
    have hge : off + align8 s ≤ layoutEnd (off + align8 s) tl :=
      layoutEnd_ge tl (off + align8 s)
    rcases ho with rfl | rfl | hmem
    · omega
    · omega
    · exact ih (off + align8 s) h6 o hmem

/-- A record with a nonzero kind and size 0 pins the walker: the advance
is zero, so no amount of fuel finishes the loop. -/
theorem mb2walk_stuck (m : Mem) (o : Nat)
    (ht : le32 m o ≠ 0) (hs : le32 m (o + 4) = 0) :
    ∀ fuel, mb2walk m fuel o = none := by
  intro fuel
  induction fuel with
  | zero => rw [mb2walk]
  | succ f ih =>
    rw [mb2walk, if_neg ht, hs, show align8 0 = 0 from rfl, Nat.add_zero, ih]

/-- Walking a laid-out run with no end sentinel reduces to walking from
the run's end offset: if that walk never finishes, neither does the
whole walk. -/
theorem mb2walk_noend (m : Mem) :
    ∀ (l : List (Nat × Nat)) (off : Nat), tagsNoEndB m off l = true →
      (∀ g, mb2walk m g (layoutEnd off l) = none) →
      ∀ fuel, mb2walk m fuel off = none := by
  intro l
  induction l with
  | nil => intro off _ hst fuel; exact hst fuel
  | cons hd tl ih =>
    obtain ⟨t, s⟩ := hd
    intro off h hst fuel
    rw [tagsNoEndB] at h
    simp only [Bool.and_eq_true, beq_iff_eq, bne_iff_ne] at h
    obtain ⟨⟨⟨h1, h2⟩, h3⟩, h4⟩ := h
    cases fuel with
    | zero => rw [mb2walk]
    | succ f =>
      rw [mb2walk, if_neg (h1 ▸ h3), h2, ih (off + align8 s) h4 hst f]

/-!
## Claim theorems: tag-stream parser
-/

/-- C1: the tag walk of `parse_multiboot2` is not bounded by `total_size`.
On `mOverrun` the block declares `total_size = 16` and its single record
(kind 1, size 16) has no end sentinel inside the bound, yet the parser
performs a header load at offset 24 — past `base + total_size = 16` —
and returns an ordinary successful result instead of reporting a
malformed stream.  (The C code reads `total_size` into a local it never
uses; the loop stops only on a zero kind word.) -/
theorem parse_multiboot2_ignores_total_size :
    parse_multiboot2 mOverrun 0 2 = some ([(1, 16)], [0, 8, 12, 24]) ∧
    le32 mOverrun 0 = 16 ∧ 0 + le32 mOverrun 0 < 24 := by decide

/-- C6: for every well-formed tag stream of records `l` terminated by an
end sentinel inside `base + total_size`, the parser visits exactly the
records of `l` in stream order — advancing by `align8` of each declared
size and accepting arbitrary nonzero kinds — and every header load it
performs (each a 4-byte read) stays within `base + total_size`. -/
theorem parse_multiboot2_wellformed_enumeration
    (m : Mem) (addr fuel : Nat) (l : List (Nat × Nat))
    (hlay : tagsLayoutB m (addr + 8) l = true)
    (hfuel : l.length + 1 ≤ fuel)
    (hbound : layoutEnd (addr + 8) l + 8 ≤ addr + le32 m addr) :
    parse_multiboot2 m addr fuel = some (l, addr :: readsOf (addr + 8) l) ∧
    ∀ o ∈ addr :: readsOf (addr + 8) l, o + 4 ≤ addr + le32 m addr := by
  constructor
  · simp only [parse_multiboot2, mb2walk_layout m l (addr + 8) fuel hlay hfuel]
  · intro o ho
    simp only [List.mem_cons] at ho
    have hstart := layoutEnd_ge l (addr + 8)
    rcases ho with rfl | hmem
    · omega
    · have := readsOf_le m l (addr + 8) hlay o hmem
      omega

/-- Witness for C6 on a concrete block: `total_size = 32`, one record of
kind 2 and size 8 at offset 8, end sentinel at offset 16. -/
theorem parse_multiboot2_wellformed_enumeration_witness :
    (tagsLayoutB mWellFormed 8 [(2, 8)] = true ∧
      layoutEnd 8 [(2, 8)] + 8 ≤ 0 + le32 mWellFormed 0) ∧
    parse_multiboot2 mWellFormed 0 2
      = some ([(2, 8)], 0 :: readsOf 8 [(2, 8)]) ∧
    ∀ o ∈ 0 :: readsOf 8 [(2, 8)], o + 4 ≤ 0 + le32 mWellFormed 0 :=
  ⟨⟨by decide, by decide⟩,
    parse_multiboot2_wellformed_enumeration mWellFormed 0 2 [(2, 8)]
      (by decide) (by decide) (by decide)⟩

/-- C9: a stream containing, before any end sentinel, a record with a
nonzero kind and a zero size field pins the walk — the advance
`(0 + 7) & ~7` is zero — so `parse_multiboot2` fails to terminate: it
returns `none` for every fuel bound. -/
theorem parse_multiboot2_zero_size_nontermination
    (m : Mem) (addr : Nat) (l : List (Nat × Nat))
    (hpre : tagsNoEndB m (addr + 8) l = true)
    (ht : le32 m (layoutEnd (addr + 8) l) ≠ 0)
    (hs : le32 m (layoutEnd (addr + 8) l + 4) = 0) :
    ∀ fuel, parse_multiboot2 m addr fuel = none := by
  intro fuel
  have hw := mb2walk_noend m l (addr + 8) hpre
    (mb2walk_stuck m (layoutEnd (addr + 8) l) ht hs) fuel
  simp only [parse_multiboot2, hw]

/-- Witness for C9: on `mZeroSize` the first record has kind 5 and size
0; the parser returns `none` at the concrete fuel bound 37. -/
theorem parse_multiboot2_zero_size_nontermination_witness :
    (tagsNoEndB mZeroSize 8 [] = true ∧ le32 mZeroSize 8 ≠ 0 ∧
      le32 mZeroSize 12 = 0) ∧
    parse_multiboot2 mZeroSize 0 37 = none :=
  ⟨⟨by decide, by decide, by decide⟩,
    parse_multiboot2_zero_size_nontermination mZeroSize 0 []
      (by decide) (by decide) (by decide) 37⟩

/-!
## Helper lemma about the entry walk
-/

/-- `scan_entries` returns the first listed header address passing the
signature-and-checksum test, skipping every earlier entry that fails
it. -/
theorem scan_entries_first (m : Mem) (sig : Nat) :
    ∀ (l : List Nat) (i e : Nat), l[i]? = some e →
      validMatch m sig e →
      (∀ j e', j < i → l[j]? = some e' → ¬validMatch m sig e') →
      scan_entries m sig l = some e := by
  intro l
  induction l with
  | nil => intro i e he; simp at he
  | cons h tl ih =>
    intro i e he hv hfirst
    cases i with
    | zero =>
      simp only [List.getElem?_cons_zero, Option.some_inj] at he
      subst he
      rw [scan_entries, if_pos hv]
    | succ i' =>
      have hnot : ¬validMatch m sig h :=
        hfirst 0 h (Nat.succ_pos i') (by simp)
      rw [scan_entries, if_neg hnot]
      exact ih i' e (by simpa using he) hv
        (fun j e' hj hje => hfirst (j + 1) e' (by omega) (by simpa using hje))

/-!
## Claim theorems: ACPI discovery
-/

/-- Counterexample to C4: on `mXsdtZero` the discovered root pointer has
revision 2 and a zero extended checksum over its declared length, yet
`acpi_init` does not adopt the 64-bit path (the stored `xsdt_address` is
0) and instead adopts the 32-bit RSDT address 64 — the RSDT path is
consulted despite a valid extended structure. -/
theorem acpi_init_valid_v2_falls_back :
    acpi_find_rsdp mXsdtZero = some 0xE0000 ∧
    2 ≤ byte mXsdtZero (0xE0000 + 15) ∧
    acpi_checksum mXsdtZero 0xE0000 (le32 mXsdtZero (0xE0000 + 20)) = 0 ∧
    acpi_init mXsdtZero = (0, 64, 0) := by decide

/-- C4 as amended: when the discovered root pointer has revision ≥ 2, a
zero extended checksum and a *nonzero* `xsdt_address`, `acpi_init`
adopts the XSDT exclusively (the RSDT pointer stays null, so lookups
never consult the 32-bit path); when the revision is low, the extended
checksum fails, or the `xsdt_address` is zero, it falls back to the
32-bit `rsdt_address` when that is nonzero and otherwise adopts
nothing. -/
theorem acpi_init_root_selection
    (m : Mem) (p : Nat) (hfind : acpi_find_rsdp m = some p) :
    (2 ≤ byte m (p + 15) → acpi_checksum m p (le32 m (p + 20)) = 0 →
      le64 m (p + 24) ≠ 0 → acpi_init m = (0, 0, le64 m (p + 24))) ∧
    ((¬(2 ≤ byte m (p + 15) ∧ acpi_checksum m p (le32 m (p + 20)) = 0) ∨
        le64 m (p + 24) = 0) →
      acpi_init m =
        if le32 m (p + 16) ≠ 0 then (0, le32 m (p + 16), 0)
        else (-1, 0, 0)) := by
  constructor
  · intro hrev hck hx
    have hcond : 2 ≤ byte m (p + 15) ∧
        acpi_checksum m p (le32 m (p + 20)) = 0 := ⟨hrev, hck⟩
    simp only [acpi_init, hfind]
    rw [if_pos hcond,
      if_neg (show ¬(le64 m (p + 24) = 0 ∧ le32 m (p + 16) ≠ 0) by
        simp [hx]),
      if_pos (show (0 : Nat) ≠ 0 ∨ le64 m (p + 24) ≠ 0 from Or.inr hx)]
  · intro hno
    have hx0 : (if 2 ≤ byte m (p + 15) ∧
        acpi_checksum m p (le32 m (p + 20)) = 0 then
          le64 m (p + 24) else 0) = 0 := by
      rcases hno with h | h
      · rw [if_neg h]
      · split <;> simp [h]
    simp only [acpi_init, hfind, hx0]
    by_cases hra : le32 m (p + 16) ≠ 0 <;> simp [hra]

/-- Witness for the amended C4 on `mXsdtOk`: revision 2, valid extended
checksum, `xsdt_address = 4096` — the XSDT is adopted and the RSDT
pointer stays null even though `rsdt_address = 64` is available. -/
theorem acpi_init_root_selection_witness :
    (acpi_find_rsdp mXsdtOk = some 0xE0000 ∧
      2 ≤ byte mXsdtOk (0xE0000 + 15) ∧
      acpi_checksum mXsdtOk 0xE0000 (le32 mXsdtOk (0xE0000 + 20)) = 0 ∧
      le64 mXsdtOk (0xE0000 + 24) ≠ 0 ∧ le32 mXsdtOk (0xE0000 + 16) = 64) ∧
    acpi_init mXsdtOk = (0, 0, 4096) := by
  have h := (acpi_init_root_selection mXsdtOk 0xE0000 (by decide)).1
    (by decide) (by decide) (by decide)
  refine ⟨⟨by decide, by decide, by decide, by decide, by decide⟩, ?_⟩
  rw [h]; decide

/-- C5: `acpi_find_table` over the selected root table (8-byte entries
for an adopted XSDT, 4-byte entries for the RSDT fallback, entry count
from the declared header length) returns the first entry in walk order
whose header signature matches and whose whole-table byte-sum is zero
mod 256; earlier entries — including ones whose signature matches but
whose checksum is nonzero — are skipped. -/
theorem acpi_find_table_first_valid
    (m : Mem) (rsdt xsdt sig i e : Nat)
    (hroot : ¬(rsdt = 0 ∧ xsdt = 0))
    (he : (root_entries m rsdt xsdt)[i]? = some e)
    (hv : validMatch m sig e)
    (hfirst : ∀ j e', j < i → (root_entries m rsdt xsdt)[j]? = some e' →
      ¬validMatch m sig e') :
    acpi_find_table m rsdt xsdt sig = e := by
  by_cases hx : xsdt ≠ 0
  · rw [root_entries, if_pos hx] at he hfirst
    rw [acpi_find_table, if_neg (fun hc => hx hc.2), if_pos hx,
      scan_entries_first m sig (xsdt_entries m xsdt) i e he hv hfirst]
  · have hx0 : xsdt = 0 := by simpa using hx
    have hr : rsdt ≠ 0 := fun h => hroot ⟨h, hx0⟩
    rw [root_entries, if_neg hx, if_pos hr] at he hfirst
    rw [acpi_find_table, if_neg (fun hc => hr hc.1), if_neg hx, if_pos hr,
      scan_entries_first m sig (rsdt_entries m rsdt) i e he hv hfirst]

/-- Witness for C5 on `mDupSig` with the XSDT at 4096 adopted: entry 0
(table at 8192) carries the requested "FACP" signature but a nonzero
checksum and is skipped; entry 1 (table at 12288) is the first valid
match and is returned. -/
theorem acpi_find_table_first_valid_witness :
    ((root_entries mDupSig 0 4096)[0]? = some 8192 ∧
      le32 mDupSig 8192 = 0x50434146 ∧
      ¬validMatch mDupSig 0x50434146 8192 ∧
      (root_entries mDupSig 0 4096)[1]? = some 12288 ∧
      validMatch mDupSig 0x50434146 12288) ∧
    acpi_find_table mDupSig 0 4096 0x50434146 = 12288 := by
  have hl : root_entries mDupSig 0 4096 = [8192, 12288] := by decide
  refine ⟨⟨by decide, by decide, by decide, by decide, by decide⟩, ?_⟩
  refine acpi_find_table_first_valid mDupSig 0 4096 0x50434146 1 12288
    (by decide) (by rw [hl]; rfl) (by decide) ?_
  intro j e' hj hje
  rw [hl] at hje
  have hj0 : j = 0 := by omega
  subst hj0
  simp only [List.getElem?_cons_zero, Option.some_inj] at hje
  subst hje
  decide

/-- C7: `acpi_init` is a total function that returns the ordinary value
−1 exactly when no valid root pointer is found or when neither root
table is adopted from a found pointer, and returns 0 in every other
case; its result is always one of 0 and −1 (it never halts or traps). -/
theorem acpi_init_unavailable_iff (m : Mem) :
    ((acpi_init m).1 = -1 ↔
      (acpi_find_rsdp m = none ∨
        ((acpi_init m).2.1 = 0 ∧ (acpi_init m).2.2 = 0))) ∧
    ((acpi_init m).1 = 0 ∨ (acpi_init m).1 = -1) := by
  rcases hf : acpi_find_rsdp m with _ | p
  · simp [acpi_init, hf]
  · have e : acpi_init m =
        (if (acpi_init m).2.1 ≠ 0 ∨ (acpi_init m).2.2 ≠ 0 then 0 else -1,
          (acpi_init m).2.1, (acpi_init m).2.2) := by
      simp only [acpi_init, hf]
    set R := (acpi_init m).2.1 with hR
    set X := (acpi_init m).2.2 with hX
    rw [e]
    simp only [hf, reduceCtorEq, false_or]
    by_cases hc : R ≠ 0 ∨ X ≠ 0
    · rw [if_pos hc]
      refine ⟨⟨fun h0 => absurd h0 (by decide), ?_⟩, Or.inl rfl⟩
      rintro ⟨h1, h2⟩
      rcases hc with h | h
      · exact absurd h1 h
      · exact absurd h2 h
    · rw [if_neg hc]
      push_neg at hc
      simp [hc.1, hc.2]

/-- C10: when the extended path is not adopted (low revision or failed
extended checksum) and the root pointer's `rsdt_address` field is zero,
`acpi_init` adopts neither table and returns −1 even though a valid root
pointer was found. -/
theorem acpi_init_zero_rsdt_address_unavailable
    (m : Mem) (p : Nat)
    (hfind : acpi_find_rsdp m = some p)
    (hext : byte m (p + 15) < 2 ∨ acpi_checksum m p (le32 m (p + 20)) ≠ 0)
    (hra : le32 m (p + 16) = 0) :
    acpi_init m = (-1, 0, 0) := by
  have hx : ¬(2 ≤ byte m (p + 15) ∧
      acpi_checksum m p (le32 m (p + 20)) = 0) := by
    rcases hext with h | h
    · exact fun hc => absurd hc.1 (by omega)
    · exact fun hc => h hc.2
  simp only [acpi_init, hfind]
  rw [if_neg hx,
    if_neg (show ¬((0 : Nat) = 0 ∧ le32 m (p + 16) ≠ 0) by simp [hra]),
    if_neg (show ¬((0 : Nat) ≠ 0 ∨ (0 : Nat) ≠ 0) by simp)]

/-- Witness for C10 on `mRsdpV1`: a valid revision-0 RSDP at `0xE0000`
with `rsdt_address = 0` leaves both tables unset and yields −1. -/
theorem acpi_init_zero_rsdt_address_unavailable_witness :
    (acpi_find_rsdp mRsdpV1 = some 0xE0000 ∧
      byte mRsdpV1 (0xE0000 + 15) < 2 ∧ le32 mRsdpV1 (0xE0000 + 16) = 0) ∧
    acpi_init mRsdpV1 = (-1, 0, 0) :=
  ⟨⟨by decide, by decide, by decide⟩,
    acpi_init_zero_rsdt_address_unavailable mRsdpV1 0xE0000
      (by decide) (Or.inl (by decide)) (by decide)⟩

/-!
## Claim theorems: syscall bridge
-/

/-- C3: each wrapper `__syscall0` … `__syscall6` invokes the native
boundary exactly once — its call trace is the single 7-tuple
`(n, a1, …, ak, 0, …, 0)` with the supplied in-range arguments unchanged
and the unused trailing arguments zero — and returns the boundary's
signed result unchanged. -/
theorem bridge_pure_relay (k : KBoundary) (n : Int) (a1 a2 a3 a4 a5 a6 : Nat)
    (h1 : a1 < 18446744073709551616) (h2 : a2 < 18446744073709551616)
    (h3 : a3 < 18446744073709551616) (h4 : a4 < 18446744073709551616)
    (h5 : a5 < 18446744073709551616) (h6 : a6 < 18446744073709551616) :
    __syscall0 k n = (k n 0 0 0 0 0 0, [(n, 0, 0, 0, 0, 0, 0)]) ∧
    __syscall1 k n a1 = (k n a1 0 0 0 0 0, [(n, a1, 0, 0, 0, 0, 0)]) ∧
    __syscall2 k n a1 a2 = (k n a1 a2 0 0 0 0, [(n, a1, a2, 0, 0, 0, 0)]) ∧
    __syscall3 k n a1 a2 a3
      = (k n a1 a2 a3 0 0 0, [(n, a1, a2, a3, 0, 0, 0)]) ∧
    __syscall4 k n a1 a2 a3 a4
      = (k n a1 a2 a3 a4 0 0, [(n, a1, a2, a3, a4, 0, 0)]) ∧
    __syscall5 k n a1 a2 a3 a4 a5
      = (k n a1 a2 a3 a4 a5 0, [(n, a1, a2, a3, a4, a5, 0)]) ∧
    __syscall6 k n a1 a2 a3 a4 a5 a6
      = (k n a1 a2 a3 a4 a5 a6, [(n, a1, a2, a3, a4, a5, a6)]) := by
  have e1 : u64 a1 = a1 := Nat.mod_eq_of_lt h1
  have e2 : u64 a2 = a2 := Nat.mod_eq_of_lt h2
  have e3 : u64 a3 = a3 := Nat.mod_eq_of_lt h3
  have e4 : u64 a4 = a4 := Nat.mod_eq_of_lt h4
  have e5 : u64 a5 = a5 := Nat.mod_eq_of_lt h5
  have e6 : u64 a6 = a6 := Nat.mod_eq_of_lt h6
  simp only [__syscall0, __syscall1, __syscall2, __syscall3, __syscall4,
    __syscall5, __syscall6, e1, e2, e3, e4, e5, e6, and_self]

/-- Witness for C3 with the recording boundary `kAdd` at a concrete
request. -/
theorem bridge_pure_relay_witness :
    __syscall0 kAdd 7 = (kAdd 7 0 0 0 0 0 0, [(7, 0, 0, 0, 0, 0, 0)]) ∧
    __syscall1 kAdd 7 1 = (kAdd 7 1 0 0 0 0 0, [(7, 1, 0, 0, 0, 0, 0)]) ∧
    __syscall2 kAdd 7 1 2
      = (kAdd 7 1 2 0 0 0 0, [(7, 1, 2, 0, 0, 0, 0)]) ∧
    __syscall3 kAdd 7 1 2 3
      = (kAdd 7 1 2 3 0 0 0, [(7, 1, 2, 3, 0, 0, 0)]) ∧
    __syscall4 kAdd 7 1 2 3 4
      = (kAdd 7 1 2 3 4 0 0, [(7, 1, 2, 3, 4, 0, 0)]) ∧
    __syscall5 kAdd 7 1 2 3 4 5
      = (kAdd 7 1 2 3 4 5 0, [(7, 1, 2, 3, 4, 5, 0)]) ∧
    __syscall6 kAdd 7 1 2 3 4 5 6
      = (kAdd 7 1 2 3 4 5 6, [(7, 1, 2, 3, 4, 5, 6)]) :=
  bridge_pure_relay kAdd 7 1 2 3 4 5 6 (by decide) (by decide) (by decide)
    (by decide) (by decide) (by decide)

/-- Counterexample to C2: on a request with the sentinel operation number
(`SYS_clone = -1`) the bridge does invoke the native boundary — its call
trace is the nonempty `[(-1, 1, 2, 3, 4, 5, 6)]` — and its result is
whatever that boundary returns (42 under `kPos`, −7 under `kNeg`), not
one fixed negative value produced without forwarding. -/
theorem bridge_sentinel_forwarded_counterexample :
    (__syscall6 kPos SYS_clone 1 2 3 4 5 6).2 = [(-1, 1, 2, 3, 4, 5, 6)] ∧
    (__syscall6 kPos SYS_clone 1 2 3 4 5 6).1 = 42 ∧
    (__syscall6 kNeg SYS_clone 1 2 3 4 5 6).1 = -7 ∧
    SYS_vfork = SYS_clone ∧ SYS_ptrace = SYS_clone := by decide

/-- C2 as amended: the bridge gives requests carrying the sentinel
number no special treatment — `__syscall6` forwards `(-1, a1, …, a6)` to
`exo_kernel_syscall` exactly once with the in-range arguments unchanged
and returns that boundary's result, for `SYS_clone`, `SYS_vfork` and
`SYS_ptrace` alike; any "operation not supported" result must come from
the native boundary. -/
theorem bridge_sentinel_forwarded (k : KBoundary) (a1 a2 a3 a4 a5 a6 : Nat)
    (h1 : a1 < 18446744073709551616) (h2 : a2 < 18446744073709551616)
    (h3 : a3 < 18446744073709551616) (h4 : a4 < 18446744073709551616)
    (h5 : a5 < 18446744073709551616) (h6 : a6 < 18446744073709551616) :
    __syscall6 k SYS_clone a1 a2 a3 a4 a5 a6
      = (k (-1) a1 a2 a3 a4 a5 a6, [(-1, a1, a2, a3, a4, a5, a6)]) ∧
    SYS_vfork = SYS_clone ∧ SYS_ptrace = SYS_clone := by
  refine ⟨?_, rfl, rfl⟩
  simp only [__syscall6, SYS_clone, u64, Nat.mod_eq_of_lt h1,
    Nat.mod_eq_of_lt h2, Nat.mod_eq_of_lt h3, Nat.mod_eq_of_lt h4,
    Nat.mod_eq_of_lt h5, Nat.mod_eq_of_lt h6]

/-- Witness for the amended C2 at a concrete boundary and arguments. -/
theorem bridge_sentinel_forwarded_witness :
    __syscall6 kPos SYS_clone 9 8 7 6 5 4
      = (kPos (-1) 9 8 7 6 5 4, [(-1, 9, 8, 7, 6, 5, 4)]) ∧
    SYS_vfork = SYS_clone ∧ SYS_ptrace = SYS_clone :=
  bridge_sentinel_forwarded kPos 9 8 7 6 5 4 (by decide) (by decide)
    (by decide) (by decide) (by decide) (by decide)

/-- C8: the cancellation-point entry `__syscall_cp` is observably
identical to `__syscall6` on every operation number and argument tuple:
the same single forward to the native boundary, the same result, no
interruption behaviour. -/
theorem syscall_cp_identical_to_syscall6
    (k : KBoundary) (n : Int) (a1 a2 a3 a4 a5 a6 : Nat) :
    __syscall_cp k n a1 a2 a3 a4 a5 a6 = __syscall6 k n a1 a2 a3 a4 a5 a6 :=
  rfl
